import Mathlib

/-!
Verification of the consent-reconciliation and gating logic of the
myITReturn demo application (Express.js + IBM Verify Privacy SDK).

The JavaScript source is shallowly embedded:
  * JS strings are `String`; an absent / `null` / `undefined` string field is
    `Option String` with `none`; JS truthiness of a string is
    "present and nonempty" (`strTruthy`).
  * A consent record's `state` field is `Option Int` (`none` = field absent);
    the granted state is `1`, denied `2`, opt-in `3`, opt-out `4`,
    transparent `5`.
  * The external fetch of user consents (`PrivacyService.getUserConsents`)
    either succeeds with a list of records or throws; its outcome is an
    `Except Unit (List ConsentEntry)` parameter to the functions that await
    it inside a try/catch.
  * JS objects used as string-keyed maps (`_buildConsentState`) are modelled
    as an assignment log with last-write-wins lookup plus the list of
    purpose keys in insertion order.
-/

/-! ## JavaScript string primitives -/

/-- JS truthiness of a possibly-absent string: present and nonempty. -/
def strTruthy : Option String → Bool
  | none => false
  | some s => s != ""

/-- JS `x || y` on possibly-absent strings: `x` when truthy, else `y`. -/
def jsOr (x y : Option String) : Option String :=
  if strTruthy x then x else y

/-- JS `x || d` where `d` is a string literal default. -/
def jsOrStr (x : Option String) (d : String) : String :=
  match x with
  | some s => if s != "" then s else d
  | none => d

/-- Whether `hay` starts with `needle` (character lists). -/
def startsWithSeq : List Char → List Char → Bool
  | [], _ => true
  | _ :: _, [] => false
  | n :: ns, h :: hs => n == h && startsWithSeq ns hs

/-- Whether `needle` occurs contiguously inside `hay` (character lists). -/
def listContainsSeq (needle : List Char) : List Char → Bool
  | [] => needle.isEmpty
  | c :: t => startsWithSeq needle (c :: t) || listContainsSeq needle t

/-- JS `s.includes(sub)`. -/
def strIncludes (s sub : String) : Bool :=
  listContainsSeq sub.toList s.toList

/-- JS `s.toLowerCase()` (ASCII, which is all the source uses). -/
def jsToLower (s : String) : String :=
  String.mk (s.toList.map Char.toLower)

/-- JS `s.toUpperCase()` (ASCII). -/
def jsToUpper (s : String) : String :=
  String.mk (s.toList.map Char.toUpper)

/-- JS `s.trim()`: strip leading and trailing whitespace. -/
def jsTrim (s : String) : String :=
  String.mk (((s.toList.dropWhile Char.isWhitespace).reverse.dropWhile
    Char.isWhitespace).reverse)

/-- JS `s.replace(/\s/g, '')`: drop all whitespace characters. -/
def jsStripWs (s : String) : String :=
  String.mk (s.toList.filter (fun c => !c.isWhitespace))

/-- JS `s.replace(/\D/g, '')`: keep only decimal digits. -/
def jsDigitsOnly (s : String) : String :=
  String.mk (s.toList.filter Char.isDigit)

/-- JS `s.slice(-n)`: the last `n` characters (whole string when shorter). -/
def jsSliceNeg (n : Nat) (s : String) : String :=
  String.mk (s.toList.drop (s.toList.length - n))

/-- Replace every maximal whitespace run by `'_'` (JS `replace(/\s+/g, '_')`),
tracking whether the previous character was whitespace. -/
def squashWsAux : Bool → List Char → List Char
  | _, [] => []
  | prevWs, c :: rest =>
    if c.isWhitespace then
      if prevWs then squashWsAux true rest
      else '_' :: squashWsAux true rest
    else c :: squashWsAux false rest

/-- JS `s.replace(/\s+/g, '_')`. -/
def jsCollapseWsUnderscore (s : String) : String :=
  String.mk (squashWsAux false s.toList)

/-! ## Data model: consent records and purpose metadata -/

/-- One element of a consent entry's nested `attributes` array, as the
Verify SDK may return it (`privacy-service.js` reads the fields
`attributeId`, `id`, `attributeName`, `label`, `name`, `state`). -/
structure RawAttr where
  attributeId : Option String
  id : Option String
  attributeName : Option String
  label : Option String
  name : Option String
  state : Option Int
deriving DecidableEq, Repr

/-- A consent record as returned by the Verify Privacy API: either carries a
top-level `attributeId` or a nested `attributes` array. -/
structure ConsentEntry where
  purposeId : String
  attributeId : Option String
  attributeName : Option String
  state : Option Int
  attributes : Option (List RawAttr)
deriving DecidableEq, Repr

/-- A flattened consented attribute (the `{attributeId, attributeName, state}`
objects both gate functions build). -/
structure CAttr where
  attributeId : Option String
  attributeName : Option String
  state : Option Int
deriving DecidableEq, Repr

/-- One attribute of a purpose in the app's hard-coded consent metadata
(`PrivacyService.getConsentMetadata`). -/
structure MetaAttr where
  id : String
  label : String
  description : String
deriving DecidableEq, Repr

/-- A purpose definition from `PrivacyService.getConsentMetadata`. -/
structure PurposeMeta where
  name : String
  description : String
  notice : String
  attributes : List MetaAttr
deriving DecidableEq, Repr

/-- The `MARKETING_COMMUNICATIONS` entry of the metadata table. -/
def marketingMeta : PurposeMeta :=
  { name := "Marketing Communications"
    description := "Send you marketing emails and promotional offers"
    notice := "We will use your personal data to send you relevant marketing communications. You can withdraw this consent at any time."
    attributes :=
      [ { id := "name", label := "Full Name",
          description := "Used to personalize communications" }
      , { id := "email", label := "Email Address",
          description := "Used to send marketing emails" }
      , { id := "mobile_number", label := "Mobile Number",
          description := "Used to send SMS notifications" } ] }

/-- The `ITR_FILING` entry of the metadata table. -/
def itrMeta : PurposeMeta :=
  { name := "ITR Filing Services"
    description := "File your Income Tax Return using our secure platform"
    notice := "We will use your personal and tax-related data to assist with your ITR filing in compliance with DPDP regulations. Your data is encrypted and protected."
    attributes :=
      [ { id := "name", label := "Full Name",
          description := "Required for ITR filing" }
      , { id := "email", label := "Email Address",
          description := "For filing confirmations and updates" }
      , { id := "mobile_number", label := "Mobile Number",
          description := "For OTP and two-factor authentication" }
      , { id := "aadhar_id", label := "Aadhaar Number",
          description := "Required for ITR filing verification" }
      , { id := "pan_id", label := "PAN Number",
          description := "Required for ITR filing identification" } ] }

/-- `PrivacyService.getConsentMetadata(purposeId)`: the fixed metadata table,
`null` for unknown purposes (`metadata[purposeId] || null`). -/
def getConsentMetadata (purposeId : String) : Option PurposeMeta :=
  if purposeId = "MARKETING_COMMUNICATIONS" then some marketingMeta
  else if purposeId = "ITR_FILING" then some itrMeta
  else none

/-- The logical attribute ids of a purpose (`meta.attributes.map(a => a.id)`). -/
def metaIdsOf (meta : PurposeMeta) : List String :=
  meta.attributes.map (fun a => a.id)

/-! ## Attribute resolution (`findLogicalId`)

The helper is duplicated in the source: once inside
`PrivacyService.hasRequiredConsents` / `getMissingRequiredConsents`
(`findLogicalIdSvc` below, closure over a `meta` that may be absent), and
once inside `ConsentController._buildConsentState` (`findLogicalIdCtrl`
below, closure over the per-purpose metadata lookup, with an extra fallback
branch when the purpose has no metadata). -/

/-- The `findLogicalId` closure of `PrivacyService.hasRequiredConsents` and
`PrivacyService.getMissingRequiredConsents`. -/
def findLogicalIdSvc (meta? : Option PurposeMeta) (attrId attrName : Option String) :
    Option String :=
  let metaIds : List String :=
    match meta? with
    | some meta => metaIdsOf meta
    | none => []
  let idHit : Bool :=
    match attrId with
    | some a => a != "" && decide (a ∈ metaIds)
    | none => false
  if idHit then attrId
  else
    match attrName, meta? with
    | some nm, some meta =>
      if nm != "" then
        let lowerName := jsTrim (jsToLower nm)
        match meta.attributes.find? (fun a =>
            a.label != "" && jsToLower a.label == lowerName) with
        | some exactHit => some exactHit.id
        | none =>
          match meta.attributes.find? (fun a =>
              a.label != "" && (strIncludes (jsToLower a.label) lowerName ||
                strIncludes lowerName (jsToLower a.label))) with
          | some partHit => some partHit.id
          | none =>
            if strIncludes lowerName "email" then
              some (jsOrStr (metaIds.find? (fun i => strIncludes i "email")) "email")
            else if strIncludes lowerName "mobile" then
              some (jsOrStr (metaIds.find? (fun i => strIncludes i "mobile")) "mobile_number")
            else if strIncludes lowerName "name" then
              some (jsOrStr (jsOr (metaIds.find? (fun i => i == "name"))
                (metaIds.find? (fun i => strIncludes i "name"))) "name")
            else if strIncludes lowerName "pan" then
              some (jsOrStr (metaIds.find? (fun i => strIncludes i "pan")) "pan_id")
            else if strIncludes lowerName "aadhaar" || strIncludes lowerName "aadhar" then
              some (jsOrStr (metaIds.find? (fun i =>
                strIncludes i "aadhar" || strIncludes i "aadhaar")) "aadhar_id")
            else attrId
      else attrId
    | _, _ => attrId

/-- The `findLogicalId` closure of `ConsentController._buildConsentState`.
It looks the purpose up in `purposeMeta` (same table as
`getConsentMetadata`), and when the purpose has no metadata returns
`attrId || (attrName && attrName.toLowerCase().replace(/\s+/g, '_')) || null`. -/
def findLogicalIdCtrl (purposeId : String) (attrId attrName : Option String) :
    Option String :=
  match getConsentMetadata purposeId with
  | none =>
    if strTruthy attrId then attrId
    else
      let alt : Option String :=
        match attrName with
        | none => none
        | some nm => if nm != "" then some (jsCollapseWsUnderscore (jsToLower nm)) else some nm
      if strTruthy alt then alt else none
  | some meta =>
    let metaIds : List String := metaIdsOf meta
    let idHit : Bool :=
      match attrId with
      | some a => a != "" && decide (a ∈ metaIds)
      | none => false
    if idHit then attrId
    else
      match attrName with
      | some nm =>
        if nm != "" then
          let lowerName := jsTrim (jsToLower nm)
          match meta.attributes.find? (fun a =>
              a.label != "" && jsToLower a.label == lowerName) with
          | some exactHit => some exactHit.id
          | none =>
            match meta.attributes.find? (fun a =>
                a.label != "" && (strIncludes (jsToLower a.label) lowerName ||
                  strIncludes lowerName (jsToLower a.label))) with
            | some partHit => some partHit.id
            | none =>
              if strIncludes lowerName "email" then
                some (jsOrStr (metaIds.find? (fun i => strIncludes i "email")) "email")
              else if strIncludes lowerName "mobile" then
                some (jsOrStr (metaIds.find? (fun i => strIncludes i "mobile")) "mobile_number")
              else if strIncludes lowerName "name" then
                some (jsOrStr (jsOr (metaIds.find? (fun i => i == "name"))
                  (metaIds.find? (fun i => strIncludes i "name"))) "name")
              else if strIncludes lowerName "pan" then
                some (jsOrStr (metaIds.find? (fun i => strIncludes i "pan")) "pan_id")
              else if strIncludes lowerName "aadhaar" || strIncludes lowerName "aadhar" then
                some (jsOrStr (metaIds.find? (fun i =>
                  strIncludes i "aadhar" || strIncludes i "aadhaar")) "aadhar_id")
              else attrId
        else attrId
      | none => attrId

/-! ## The ITR gate (`PrivacyService`) -/

/-- Flattening of one consent entry into consented attributes, as both
`hasRequiredConsents` and `getMissingRequiredConsents` perform it. -/
def flattenEntry (e : ConsentEntry) : List CAttr :=
  if strTruthy e.attributeId then
    [{ attributeId := e.attributeId, attributeName := e.attributeName, state := e.state }]
  else
    match e.attributes with
    | some attrs =>
      if attrs.length > 0 then
        attrs.map (fun a =>
          { attributeId := jsOr a.attributeId a.id
            attributeName := jsOr (jsOr a.attributeName a.label) a.name
            state := a.state })
      else []
    | none => []

/-- Flattening of a list of consent entries (the `consent.forEach` loop). -/
def flattenConsents : List ConsentEntry → List CAttr
  | [] => []
  | e :: rest => flattenEntry e ++ flattenConsents rest

/-- `PrivacyService.getConsentForPurpose`: filter all user consents down to
the given purpose. -/
def purposeConsents (consents : List ConsentEntry) (purposeId : String) :
    List ConsentEntry :=
  consents.filter (fun c => c.purposeId = purposeId)

/-- The `consentedLogical` list both gate functions build: each flattened
attribute paired with its resolved logical id. -/
def consentedLogicalOf (purposeId : String) (consent : List ConsentEntry) :
    List (Option String × Option Int) :=
  (flattenConsents consent).map (fun ca =>
    (findLogicalIdSvc (getConsentMetadata purposeId) ca.attributeId ca.attributeName,
     ca.state))

/-- `PrivacyService.hasRequiredConsents`, given a successfully fetched
consent list. -/
def hasRequiredConsentsPure (consents : List ConsentEntry) (purposeId : String)
    (requiredAttributes : List String) : Bool :=
  let consent := purposeConsents consents purposeId
  if consent.length = 0 then false
  else if requiredAttributes.length = 0 then true
  else
    let consentedLogical := consentedLogicalOf purposeId consent
    requiredAttributes.all (fun reqAttr =>
      consentedLogical.any (fun ca => ca.1 == some reqAttr && ca.2 == some 1))

/-- `PrivacyService.getMissingRequiredConsents`, given a successfully fetched
consent list. -/
def getMissingRequiredConsentsPure (consents : List ConsentEntry) (purposeId : String)
    (requiredAttributes : List String) : List String :=
  let consent := purposeConsents consents purposeId
  if consent.length = 0 then requiredAttributes
  else if requiredAttributes.length = 0 then []
  else
    let consentedLogical := consentedLogicalOf purposeId consent
    requiredAttributes.filter (fun reqAttr =>
      !(consentedLogical.any (fun ca => ca.1 == some reqAttr && ca.2 == some 1)))

/-- `PrivacyService.hasRequiredConsents` with the outcome of the external
consent fetch made explicit: any thrown error is caught and the function
returns `false` (the catch block; no retry, no rethrow). -/
def hasRequiredConsents (fetched : Except Unit (List ConsentEntry))
    (purposeId : String) (requiredAttributes : List String) : Bool :=
  match fetched with
  | .ok consents => hasRequiredConsentsPure consents purposeId requiredAttributes
  | .error _ => false

/-- `PrivacyService.getMissingRequiredConsents` with the fetch outcome made
explicit: on error the catch block returns `requiredAttributes.slice()`. -/
def getMissingRequiredConsents (fetched : Except Unit (List ConsentEntry))
    (purposeId : String) (requiredAttributes : List String) : List String :=
  match fetched with
  | .ok consents => getMissingRequiredConsentsPure consents purposeId requiredAttributes
  | .error _ => requiredAttributes

/-- Whether some consented attribute of the purpose resolves to logical id
`q` with state granted (the `consentedLogical.some(...)` test both gate
functions apply per required attribute). -/
def grantedLogical (consents : List ConsentEntry) (purposeId : String) (q : String) : Bool :=
  (consentedLogicalOf purposeId (purposeConsents consents purposeId)).any
    (fun ca => ca.1 == some q && ca.2 == some 1)

/-- The required attributes of the ITR purpose (`canFileITR`, `ITRController`). -/
def itrRequiredAttributes : List String :=
  ["name", "email", "mobile_number", "aadhar_id", "pan_id"]

/-- `PrivacyService.canFileITR`. -/
def canFileITR (fetched : Except Unit (List ConsentEntry)) : Bool :=
  hasRequiredConsents fetched "ITR_FILING" itrRequiredAttributes

/-! ## `ConsentController._buildConsentState` -/

/-- One write `state[purposeId][key] = value` performed by
`_buildConsentState`. The key is the resolved logical id, which the source
allows to be `null`/`undefined` (kept as `none` here). -/
structure Assign where
  purpose : String
  key : Option String
  value : Bool
deriving DecidableEq, Repr

/-- The nested `state` object built by `_buildConsentState`: the purpose
keys in insertion order, and the log of attribute writes. -/
structure BState where
  purposes : List String
  assigns : List Assign
deriving DecidableEq, Repr

/-- Reading `state[p][k]`: the value of the last write to that key, if any. -/
def lookupLast : List Assign → String → Option String → Option Bool
  | [], _, _ => none
  | a :: rest, p, k =>
    match lookupLast rest p k with
    | some v => some v
    | none => if a.purpose = p ∧ a.key = k then some a.value else none

/-- Reading `state[p][k]` from a built consent state. -/
def BState.get (s : BState) (p : String) (k : Option String) : Option Bool :=
  lookupLast s.assigns p k

/-- The writes one consent entry produces in the `consents.forEach` loop of
`_buildConsentState`: either the top-level `attributeId` branch or the
nested-`attributes` branch (`Object.values(consent.attributes || {})` is the
empty list when the field is absent). -/
def entryAssigns (c : ConsentEntry) : List Assign :=
  if strTruthy c.attributeId then
    [{ purpose := c.purposeId
       key := findLogicalIdCtrl c.purposeId c.attributeId c.attributeName
       value := c.state == some (1 : Int) }]
  else
    let attributes := c.attributes.getD []
    attributes.map (fun a =>
      let attrId := jsOr a.attributeId a.id
      { purpose := c.purposeId
        key := findLogicalIdCtrl c.purposeId attrId (jsOr (jsOr a.attributeName a.label) a.name)
        value := a.state == some (1 : Int) })

/-- One iteration of the `consents.forEach` loop: ensure the purpose key
exists, then perform the entry's writes. -/
def stepEntry (s : BState) (c : ConsentEntry) : BState :=
  { purposes :=
      if c.purposeId ∈ s.purposes then s.purposes else s.purposes ++ [c.purposeId]
    assigns := s.assigns ++ entryAssigns c }

/-- The default state `_buildConsentState` returns for a `null` or empty
consent list: every default attribute of both purposes set to `false`. -/
def defaultState : BState :=
  { purposes := ["MARKETING_COMMUNICATIONS", "ITR_FILING"]
    assigns :=
      (["name", "email", "mobile_number"].map (fun a =>
        { purpose := "MARKETING_COMMUNICATIONS", key := some a, value := false })) ++
      (["name", "email", "mobile_number", "aadhar_id", "pan_id"].map (fun a =>
        { purpose := "ITR_FILING", key := some a, value := false })) }

/-- `ConsentController._buildConsentState`. The argument is `none` when the
caller passes `null`/`undefined`. -/
def buildConsentState (consents : Option (List ConsentEntry)) : BState :=
  match consents with
  | none => defaultState
  | some cs =>
    if cs.length = 0 then defaultState
    else cs.foldl stepEntry
      { purposes := ["MARKETING_COMMUNICATIONS", "ITR_FILING"], assigns := [] }

/-! ## `PrivacyService.updateConsent` and the fetch wrapper -/

/-- The consent value `updateConsent` sends to `storeConsents`. -/
structure ConsentValue where
  purposeId : String
  attributeId : String
  accessTypeId : String
  state : Int
deriving DecidableEq, Repr

/-- The value `updateConsent` builds for a request. -/
def mkConsentValue (purposeId attributeId : String) (state : Int) : ConsentValue :=
  { purposeId := purposeId, attributeId := attributeId
    accessTypeId := "default", state := state }

/-- `PrivacyService.updateConsent`: before storing, it fetches the purpose
definition from the SDK; when that succeeds and the attribute is not among
the purpose's attribute ids it throws `ATTRIBUTE_NOT_IN_PURPOSE`, otherwise
it stores the consent value. `sdkAttrIds` is the attribute-id list of the
purpose definition the SDK returned (`none` when the metadata fetch failed
or the purpose definition was absent, in which case the code proceeds). -/
def updateConsent (sdkAttrIds : Option (List String)) (purposeId attributeId : String)
    (state : Int) : Except String ConsentValue :=
  match sdkAttrIds with
  | some attrIds =>
    if attributeId ∈ attrIds then .ok (mkConsentValue purposeId attributeId state)
    else .error "ATTRIBUTE_NOT_IN_PURPOSE"
  | none => .ok (mkConsentValue purposeId attributeId state)

/-- A stored consent value as the Privacy API returns it on a later fetch,
when the external store faithfully records what was written. -/
def entryOfValue (v : ConsentValue) : ConsentEntry :=
  { purposeId := v.purposeId, attributeId := some v.attributeId
    attributeName := none, state := some v.state, attributes := none }

/-- `PrivacyService.getUserConsents` on a successful API response:
`result.consents || []`. -/
def getUserConsentsOk (resultConsents : Option (List ConsentEntry)) : List ConsentEntry :=
  resultConsents.getD []

/-! ## `ConsentController.updateConsentToggle`: state coercion -/

/-- A JavaScript request-body value, as far as the strict comparisons in
`updateConsentToggle` can distinguish them. -/
inductive JSVal where
  | bool (b : Bool)
  | num (n : Int)
  | str (s : String)
  | null
  | undefined
deriving DecidableEq, Repr

/-- The coercion `const consentState = state === true || state === 1 ? 1 : 2`
in `ConsentController.updateConsentToggle`. -/
def coerceConsentState (state : JSVal) : Int :=
  if state = JSVal.bool true ∨ state = JSVal.num 1 then 1 else 2

/-! ## Registration step 2 (`RegistrationController`) -/

/-- The test of `/^\d{12}$/` (after whitespace removal, done by the caller). -/
def aadhaarRegexTest (s : String) : Bool :=
  s.toList.length = 12 && s.toList.all (fun c => '0' ≤ c && c ≤ '9')

/-- The test of `/^[A-Z]{5}[0-9]{4}[A-Z]{1}$/` (on the uppercased string,
done by the caller). -/
def panRegexTest (s : String) : Bool :=
  let cs := s.toList
  cs.length = 10
    && (cs.take 5).all (fun c => 'A' ≤ c && c ≤ 'Z')
    && ((cs.drop 5).take 4).all (fun c => '0' ≤ c && c ≤ '9')
    && (cs.drop 9).all (fun c => 'A' ≤ c && c ≤ 'Z')

/-- `RegistrationController._validateAadhaar`:
`aadhaar && aadhaarRegex.test(aadhaar.replace(/\s/g, ''))`. -/
def validateAadhaar (aadhaar : Option String) : Bool :=
  match aadhaar with
  | none => false
  | some s => s != "" && aadhaarRegexTest (jsStripWs s)

/-- `RegistrationController._validatePAN`:
`pan && panRegex.test(pan.toUpperCase())`. -/
def validatePAN (pan : Option String) : Bool :=
  match pan with
  | none => false
  | some s => s != "" && panRegexTest (jsToUpper s)

/-- `RegistrationController._maskAadhaar`: 8 asterisks followed by the last
4 characters of the digit-only form. -/
def maskAadhaar (aadhaar : Option String) : String :=
  match aadhaar with
  | none => ""
  | some s =>
    if s = "" then ""
    else "********" ++ jsSliceNeg 4 (jsDigitsOnly s)

/-- `RegistrationController._maskPAN`: first 5 characters, 4 asterisks, last
character, all on the uppercased string. -/
def maskPAN (pan : Option String) : String :=
  match pan with
  | none => ""
  | some s =>
    if s = "" then ""
    else
      let clean := jsToUpper s
      String.mk (clean.toList.take 5) ++ "****" ++ jsSliceNeg 1 clean

/-- The observable outcome of `RegistrationController.postStep2`. -/
inductive Step2Result where
  /-- No in-progress registration in the session: redirect to step 1. -/
  | redirectStep1
  /-- HTTP 400, step-2 form re-rendered with the Aadhaar error message. -/
  | invalidAadhaar
  /-- HTTP 400, step-2 form re-rendered with the PAN error message. -/
  | invalidPAN
  /-- Session updated (masked and full values) and redirect to step 3. -/
  | redirectStep3 (maskedAadhaar aadhaarFull maskedPan panFull : String)
deriving DecidableEq, Repr

/-- `RegistrationController.postStep2`: validate Aadhaar then PAN, store the
masked and full values in the session, redirect to step 3. -/
def postStep2 (tempUserPresent : Bool) (aadhaar pan : Option String) : Step2Result :=
  if !tempUserPresent then .redirectStep1
  else if !validateAadhaar aadhaar then .invalidAadhaar
  else if !validatePAN pan then .invalidPAN
  else .redirectStep3 (maskAadhaar aadhaar) (aadhaar.getD "")
    (maskPAN pan) (pan.getD "")

/-! ## The spec's ordered resolution rules

`spec.md` §4.1 describes attribute resolution as an ordered rule list:
(a) exact id match, (b) exact case-insensitive label match, (c) substring
match in either direction, (d) keyword heuristics — each later rule applied
only when every earlier rule fails.  The following definitions state those
rules separately, to be compared with `findLogicalIdSvc`/`findLogicalIdCtrl`. -/

/-- Rule (a): exact match of the record's attribute id against the purpose's
known logical ids. -/
def ruleExactId (metaIds : List String) (attrId : Option String) : Option String :=
  match attrId with
  | some a => if a != "" && decide (a ∈ metaIds) then some a else none
  | none => none

/-- Rule (b): exact case-insensitive match of the record's label against a
metadata attribute label. -/
def ruleExactLabel (meta : PurposeMeta) (lowerName : String) : Option String :=
  (meta.attributes.find? (fun a =>
    a.label != "" && jsToLower a.label == lowerName)).map (fun a => a.id)

/-- Rule (c): substring match between the record's label and a metadata
label, in either direction. -/
def ruleSubstringLabel (meta : PurposeMeta) (lowerName : String) : Option String :=
  (meta.attributes.find? (fun a =>
    a.label != "" && (strIncludes (jsToLower a.label) lowerName ||
      strIncludes lowerName (jsToLower a.label)))).map (fun a => a.id)

/-- Rule (d): keyword heuristics, tried in the fixed order email, mobile,
name, pan, aadhaar. -/
def ruleKeyword (metaIds : List String) (lowerName : String) : Option String :=
  if strIncludes lowerName "email" then
    some (jsOrStr (metaIds.find? (fun i => strIncludes i "email")) "email")
  else if strIncludes lowerName "mobile" then
    some (jsOrStr (metaIds.find? (fun i => strIncludes i "mobile")) "mobile_number")
  else if strIncludes lowerName "name" then
    some (jsOrStr (jsOr (metaIds.find? (fun i => i == "name"))
      (metaIds.find? (fun i => strIncludes i "name"))) "name")
  else if strIncludes lowerName "pan" then
    some (jsOrStr (metaIds.find? (fun i => strIncludes i "pan")) "pan_id")
  else if strIncludes lowerName "aadhaar" || strIncludes lowerName "aadhar" then
    some (jsOrStr (metaIds.find? (fun i =>
      strIncludes i "aadhar" || strIncludes i "aadhaar")) "aadhar_id")
  else none

/-- The spec's resolution procedure: rules (a)–(d) in order, each later rule
only when every earlier rule fails; when no rule applies the attribute id is
passed through unresolved. Label rules apply only when the record carries a
nonempty label and the purpose has metadata. -/
def resolveByRules (meta? : Option PurposeMeta) (attrId attrName : Option String) :
    Option String :=
  let metaIds : List String :=
    match meta? with
    | some meta => metaIdsOf meta
    | none => []
  match ruleExactId metaIds attrId with
  | some r => some r
  | none =>
    match attrName, meta? with
    | some nm, some meta =>
      if nm != "" then
        let lowerName := jsTrim (jsToLower nm)
        match ruleExactLabel meta lowerName with
        | some r => some r
        | none =>
          match ruleSubstringLabel meta lowerName with
          | some r => some r
          | none =>
            match ruleKeyword metaIds lowerName with
            | some r => some r
            | none => attrId
      else attrId
    | _, _ => attrId

/-- A flattened consented attribute that resolves to no logical attribute of
the purpose: its attribute id matches none of the known logical ids
(rule (a) fails) and its label matches no resolution rule (rules (b)–(d)
fail whenever a nonempty label is present). -/
def unresolvedAttr (meta : PurposeMeta) (fa : CAttr) : Prop :=
  ruleExactId (metaIdsOf meta) fa.attributeId = none ∧
  ∀ nm, fa.attributeName = some nm → nm ≠ "" →
    ruleExactLabel meta (jsTrim (jsToLower nm)) = none ∧
    ruleSubstringLabel meta (jsTrim (jsToLower nm)) = none ∧
    ruleKeyword (metaIdsOf meta) (jsTrim (jsToLower nm)) = none


/-! ## Derived definitions used by the statements -/


/-- Whether one flattened attribute of the purpose resolves to `q` with a
granted state (the body of the `consentedLogical.some(...)` test). -/
def attrGrantsQ (purposeId q : String) (fa : CAttr) : Bool :=
  (findLogicalIdSvc (getConsentMetadata purposeId) fa.attributeId fa.attributeName
    == some q) && (fa.state == some (1 : Int))

/-- All writes produced by a list of consent entries, in order. -/
def flatAssigns : List ConsentEntry → List Assign
  | [] => []
  | c :: rest => entryAssigns c ++ flatAssigns rest


/-! ## Helper lemmas -/


/-- Flattening distributes over list append. -/
lemma flattenConsents_append (l₁ l₂ : List ConsentEntry) :
    flattenConsents (l₁ ++ l₂) = flattenConsents l₁ ++ flattenConsents l₂ := by
  induction l₁ with
  | nil => simp [flattenConsents]
  | cons e t ih => simp [flattenConsents, ih]

/-- Pointwise-equal predicates give equal `List.all`. -/
lemma list_all_congr {α : Type} (l : List α) (f g : α → Bool)
    (h : ∀ a ∈ l, f a = g a) : l.all f = l.all g := by
  induction l with
  | nil => rfl
  | cons a t ih =>
    simp only [List.all_cons, h a (by simp)]
    rw [ih (fun b hb => h b (by simp [hb]))]

/-- Pointwise-equal predicates give equal `List.filter`. -/
lemma list_filter_congr {α : Type} (l : List α) (f g : α → Bool)
    (h : ∀ a ∈ l, f a = g a) : l.filter f = l.filter g := by
  induction l with
  | nil => rfl
  | cons a t ih =>
    simp only [List.filter_cons, h a (by simp)]
    rw [ih (fun b hb => h b (by simp [hb]))]

lemma any_map_general {α β : Type} (l : List α) (f : α → β) (pr : β → Bool) :
    (l.map f).any pr = l.any (fun x => pr (f x)) := by
  induction l <;> simp_all

lemma grantedLogical_nil (p q : String) : grantedLogical [] p q = false := rfl

lemma grantedLogical_cons (e : ConsentEntry) (cs : List ConsentEntry) (p q : String) :
    grantedLogical (e :: cs) p q =
      ((decide (e.purposeId = p) && (flattenEntry e).any (attrGrantsQ p q)) ||
        grantedLogical cs p q) := by
  unfold grantedLogical purposeConsents consentedLogicalOf
  by_cases h : e.purposeId = p
  · have hd : decide (e.purposeId = p) = true := decide_eq_true h
    rw [List.filter_cons, hd]
    simp only [if_true, flattenConsents, List.map_append, List.any_append,
      any_map_general, hd, Bool.true_and]
    rfl
  · have hd : decide (e.purposeId = p) = false := decide_eq_false h
    rw [List.filter_cons, hd]
    simp [hd]

lemma grantedLogical_append (l₁ l₂ : List ConsentEntry) (p q : String) :
    grantedLogical (l₁ ++ l₂) p q = (grantedLogical l₁ p q || grantedLogical l₂ p q) := by
  induction l₁ with
  | nil => simp [grantedLogical_nil]
  | cons e t ih => simp [grantedLogical_cons, ih, Bool.or_assoc]

/-- `getMissingRequiredConsents` (pure part) always returns exactly the
required attributes that do not resolve to a granted consent. -/
lemma missing_eq_filter (cs : List ConsentEntry) (p : String) (req : List String) :
    getMissingRequiredConsentsPure cs p req =
      req.filter (fun q => !(grantedLogical cs p q)) := by
  unfold getMissingRequiredConsentsPure
  by_cases h1 : (purposeConsents cs p).length = 0
  · have h0 : purposeConsents cs p = [] := List.length_eq_zero.mp h1
    simp only [h1, if_pos rfl, if_true]
    have : ∀ q ∈ req, (!(grantedLogical cs p q)) = true := by
      intro q _
      unfold grantedLogical
      rw [h0]
      rfl
    exact (List.filter_eq_self.mpr this).symm
  · simp only [if_neg h1]
    by_cases h2 : req.length = 0
    · simp [List.length_eq_zero.mp h2]
    · simp only [if_neg h2]
      rfl

/-- `hasRequiredConsents` (pure part) equals: the purpose has at least one
consent record, and (the required set is empty, or every required attribute
resolves to a granted consent). -/
lemma hasRequired_eq (cs : List ConsentEntry) (p : String) (req : List String) :
    hasRequiredConsentsPure cs p req =
      (!(purposeConsents cs p).isEmpty &&
        (req.isEmpty || req.all (fun q => grantedLogical cs p q))) := by
  unfold hasRequiredConsentsPure
  by_cases h1 : (purposeConsents cs p).length = 0
  · have h0 : purposeConsents cs p = [] := List.length_eq_zero.mp h1
    simp [h1, h0]
  · have h0 : (purposeConsents cs p).isEmpty = false := by
      cases hpc : purposeConsents cs p with
      | nil => exact absurd (by rw [hpc]; rfl) h1
      | cons a t => rfl
    by_cases h2 : req.length = 0
    · have hre : req = [] := List.length_eq_zero.mp h2
      subst hre
      have h0a : ¬purposeConsents cs p = [] := fun hh => h1 (by rw [hh]; rfl)
      simp [if_neg h1, h0, h0a]
    · have hre : req.isEmpty = false := by
        cases hr : req with
        | nil => exact absurd (by rw [hr]; rfl) h2
        | cons a t => rfl
      simp only [if_neg h1, if_neg h2, h0, hre]
      simp only [Bool.not_false, Bool.true_and, Bool.false_or]
      rfl

/-- The label-resolution block of `findLogicalId` (exact label, substring
label, keyword heuristics, fall through to `dflt`) equals the corresponding
chained application of the spec rules (b), (c), (d). -/
lemma nameBlockEq (meta : PurposeMeta) (nm : String) (dflt : Option String) :
    (if (nm != "") = true then
        match List.find? (fun a => a.label != "" && jsToLower a.label == jsTrim (jsToLower nm))
            meta.attributes with
        | some exactHit => some exactHit.id
        | none =>
          match List.find? (fun a => a.label != "" &&
              (strIncludes (jsToLower a.label) (jsTrim (jsToLower nm)) ||
                strIncludes (jsTrim (jsToLower nm)) (jsToLower a.label))) meta.attributes with
          | some partHit => some partHit.id
          | none =>
            if strIncludes (jsTrim (jsToLower nm)) "email" = true then
              some (jsOrStr (List.find? (fun i => strIncludes i "email") (metaIdsOf meta)) "email")
            else if strIncludes (jsTrim (jsToLower nm)) "mobile" = true then
              some (jsOrStr (List.find? (fun i => strIncludes i "mobile") (metaIdsOf meta)) "mobile_number")
            else if strIncludes (jsTrim (jsToLower nm)) "name" = true then
              some (jsOrStr (jsOr (List.find? (fun i => i == "name") (metaIdsOf meta))
                (List.find? (fun i => strIncludes i "name") (metaIdsOf meta))) "name")
            else if strIncludes (jsTrim (jsToLower nm)) "pan" = true then
              some (jsOrStr (List.find? (fun i => strIncludes i "pan") (metaIdsOf meta)) "pan_id")
            else if (strIncludes (jsTrim (jsToLower nm)) "aadhaar" ||
                strIncludes (jsTrim (jsToLower nm)) "aadhar") = true then
              some (jsOrStr (List.find? (fun i =>
                strIncludes i "aadhar" || strIncludes i "aadhaar") (metaIdsOf meta)) "aadhar_id")
            else dflt
      else dflt)
    =
    (if (nm != "") = true then
        match ruleExactLabel meta (jsTrim (jsToLower nm)) with
        | some r => some r
        | none =>
          match ruleSubstringLabel meta (jsTrim (jsToLower nm)) with
          | some r => some r
          | none =>
            match ruleKeyword (metaIdsOf meta) (jsTrim (jsToLower nm)) with
            | some r => some r
            | none => dflt
      else dflt) := by
  by_cases hnm : (nm != "") = true
  · rw [if_pos hnm, if_pos hnm]
    unfold ruleExactLabel ruleSubstringLabel ruleKeyword
    generalize List.find? (fun a => a.label != "" && jsToLower a.label == jsTrim (jsToLower nm))
      meta.attributes = r1
    cases r1 with
    | some e => rfl
    | none =>
      dsimp only [Option.map_none']
      generalize List.find? (fun a => a.label != "" &&
        (strIncludes (jsToLower a.label) (jsTrim (jsToLower nm)) ||
          strIncludes (jsTrim (jsToLower nm)) (jsToLower a.label))) meta.attributes = r2
      cases r2 with
      | some e => rfl
      | none =>
        dsimp only [Option.map_none']
        generalize strIncludes (jsTrim (jsToLower nm)) "email" = b1
        cases b1 with
        | true => rfl
        | false =>
          generalize strIncludes (jsTrim (jsToLower nm)) "mobile" = b2
          cases b2 with
          | true => rfl
          | false =>
            generalize strIncludes (jsTrim (jsToLower nm)) "name" = b3
            cases b3 with
            | true => rfl
            | false =>
              generalize strIncludes (jsTrim (jsToLower nm)) "pan" = b4
              cases b4 with
              | true => rfl
              | false =>
                generalize (strIncludes (jsTrim (jsToLower nm)) "aadhaar" ||
                  strIncludes (jsTrim (jsToLower nm)) "aadhar") = b5
                cases b5 with
                | true => rfl
                | false => rfl
  · rw [if_neg hnm, if_neg hnm]

/-- The service `findLogicalId` closure is exactly the spec's ordered rule
cascade. -/
lemma findLogicalIdSvc_eq_rules (meta? : Option PurposeMeta) (attrId attrName : Option String) :
    findLogicalIdSvc meta? attrId attrName = resolveByRules meta? attrId attrName := by
  have h0 : ¬(false = true) := by simp
  cases meta? with
  | none =>
    cases attrId with
    | none => cases attrName <;> rfl
    | some a =>
      cases attrName with
      | none =>
        unfold findLogicalIdSvc resolveByRules ruleExactId
        dsimp only
        generalize (a != "" && decide (a ∈ ([] : List String))) = b
        cases b
        · rw [if_neg h0, if_neg h0]
        · rfl
      | some nm =>
        unfold findLogicalIdSvc resolveByRules ruleExactId
        dsimp only
        generalize (a != "" && decide (a ∈ ([] : List String))) = b
        cases b
        · rw [if_neg h0, if_neg h0]
        · rfl
  | some meta =>
    cases attrId with
    | none =>
      unfold findLogicalIdSvc resolveByRules ruleExactId
      dsimp only
      rw [if_neg h0]
      cases attrName with
      | none => rfl
      | some nm =>
        dsimp only
        exact nameBlockEq meta nm none
    | some a =>
      unfold findLogicalIdSvc resolveByRules ruleExactId
      dsimp only
      generalize (a != "" && decide (a ∈ metaIdsOf meta)) = b
      cases b
      · rw [if_neg h0, if_neg h0]
        cases attrName with
        | none => rfl
        | some nm =>
          dsimp only
          exact nameBlockEq meta nm (some a)
      · rfl

/-- With known purpose metadata, the controller's `findLogicalId` coincides
with the service's. -/
lemma findLogicalIdCtrl_eq_svc (p : String) (meta : PurposeMeta)
    (attrId attrName : Option String) (h : getConsentMetadata p = some meta) :
    findLogicalIdCtrl p attrId attrName = findLogicalIdSvc (some meta) attrId attrName := by
  unfold findLogicalIdCtrl findLogicalIdSvc
  rw [h]
  cases attrName <;> rfl

/-- With known purpose metadata, the controller's `findLogicalId` is exactly
the spec's ordered rule cascade. -/
lemma findLogicalIdCtrl_eq_rules (p : String) (meta : PurposeMeta)
    (attrId attrName : Option String) (h : getConsentMetadata p = some meta) :
    findLogicalIdCtrl p attrId attrName = resolveByRules (some meta) attrId attrName := by
  rw [findLogicalIdCtrl_eq_svc p meta attrId attrName h]
  exact findLogicalIdSvc_eq_rules (some meta) attrId attrName

/-- The known purposes have no empty-string logical attribute id. -/
lemma metaIds_no_empty (p : String) (meta : PurposeMeta)
    (h : getConsentMetadata p = some meta) : "" ∉ metaIdsOf meta := by
  unfold getConsentMetadata at h
  split_ifs at h
  · obtain rfl : marketingMeta = meta := Option.some.inj h
    decide
  · obtain rfl : itrMeta = meta := Option.some.inj h
    decide

/-- When every rule fails, the spec cascade passes the attribute id through. -/
lemma resolveByRules_unresolved (meta : PurposeMeta) (fa : CAttr)
    (hun : unresolvedAttr meta fa) :
    resolveByRules (some meta) fa.attributeId fa.attributeName = fa.attributeId := by
  unfold resolveByRules
  dsimp only
  rw [hun.1]
  cases hnm : fa.attributeName with
  | none => rfl
  | some nm =>
    dsimp only
    by_cases hne : (nm != "") = true
    · have hb : nm ≠ "" := by simpa using hne
      obtain ⟨hb1, hb2, hb3⟩ := hun.2 nm hnm hb
      rw [if_pos hne, hb1, hb2, hb3]
    · rw [if_neg hne]

/-- An unresolved attribute never counts as a grant of a known logical id. -/
lemma unresolved_no_grant (p : String) (meta : PurposeMeta) (fa : CAttr) (q : String)
    (hmeta : getConsentMetadata p = some meta) (hun : unresolvedAttr meta fa)
    (hq : q ∈ metaIdsOf meta) : attrGrantsQ p q fa = false := by
  unfold attrGrantsQ
  rw [hmeta, findLogicalIdSvc_eq_rules, resolveByRules_unresolved meta fa hun]
  have hne : fa.attributeId ≠ some q := by
    intro he
    have h1 := hun.1
    rw [he] at h1
    unfold ruleExactId at h1
    dsimp only at h1
    have hq0 : ¬q = "" := by
      intro hq0
      exact metaIds_no_empty p meta hmeta (hq0 ▸ hq)
    rw [if_pos (by simp [hq0, hq])] at h1
    exact Option.noConfusion h1
  simp [hne]

lemma flatAssigns_append (l₁ l₂ : List ConsentEntry) :
    flatAssigns (l₁ ++ l₂) = flatAssigns l₁ ++ flatAssigns l₂ := by
  induction l₁ with
  | nil => simp [flatAssigns]
  | cons e t ih => simp [flatAssigns, ih]

lemma foldl_assigns (cs : List ConsentEntry) (s : BState) :
    (cs.foldl stepEntry s).assigns = s.assigns ++ flatAssigns cs := by
  induction cs generalizing s with
  | nil => simp [flatAssigns]
  | cons c t ih =>
    rw [List.foldl_cons, ih]
    simp [stepEntry, flatAssigns]

lemma foldl_purposes_mem (cs : List ConsentEntry) (s : BState) (m : String)
    (h : m ∈ s.purposes) : m ∈ (cs.foldl stepEntry s).purposes := by
  induction cs generalizing s with
  | nil => exact h
  | cons c t ih =>
    rw [List.foldl_cons]
    refine ih _ ?_
    unfold stepEntry
    dsimp only
    split
    · exact h
    · exact List.mem_append_left _ h

lemma mem_flatAssigns {asn : Assign} {cs : List ConsentEntry}
    (h : asn ∈ flatAssigns cs) : ∃ e ∈ cs, asn ∈ entryAssigns e := by
  induction cs with
  | nil => cases h
  | cons c t ih =>
    rw [flatAssigns, List.mem_append] at h
    cases h with
    | inl h => exact ⟨c, by simp, h⟩
    | inr h =>
      obtain ⟨e, he, ha⟩ := ih h
      exact ⟨e, by simp [he], ha⟩

lemma lookupLast_append (xs ys : List Assign) (p : String) (k : Option String) :
    lookupLast (xs ++ ys) p k =
      match lookupLast ys p k with
      | some v => some v
      | none => lookupLast xs p k := by
  induction xs with
  | nil =>
    simp only [List.nil_append]
    cases lookupLast ys p k <;> rfl
  | cons a t ih =>
    rw [List.cons_append]
    show (match lookupLast (t ++ ys) p k with
          | some v => some v
          | none => if a.purpose = p ∧ a.key = k then some a.value else none) = _
    rw [ih]
    cases hl : lookupLast ys p k with
    | some v => rfl
    | none => rfl

lemma lookupLast_eq_none (l : List Assign) (p : String) (k : Option String)
    (h : ∀ asn ∈ l, ¬(asn.purpose = p ∧ asn.key = k)) :
    lookupLast l p k = none := by
  induction l with
  | nil => rfl
  | cons a t ih =>
    unfold lookupLast
    rw [ih (fun asn hm => h asn (by simp [hm]))]
    rw [if_neg (h a (by simp))]

/-- When the attribute id is nonempty and a known logical id of the purpose,
the controller resolution returns it unchanged (rule (a)). -/
lemma findLogicalIdCtrl_idHit (p : String) (meta : PurposeMeta) (a : String)
    (nm : Option String) (hmeta : getConsentMetadata p = some meta)
    (ha0 : a ≠ "") (ha : a ∈ metaIdsOf meta) :
    findLogicalIdCtrl p (some a) nm = some a := by
  unfold findLogicalIdCtrl
  rw [hmeta]
  dsimp only
  rw [if_pos (by simp [ha0, ha])]

/-- With no label, the controller resolution passes any nonempty attribute id
through unchanged, for every purpose. -/
lemma findLogicalIdCtrl_noName (p : String) (a : String) (ha0 : a ≠ "") :
    findLogicalIdCtrl p (some a) none = some a := by
  unfold findLogicalIdCtrl
  cases hm : getConsentMetadata p with
  | none =>
    dsimp only
    rw [if_pos (by simp [strTruthy, ha0])]
  | some meta =>
    dsimp only
    by_cases hid : (a != "" && decide (a ∈ metaIdsOf meta)) = true
    · rw [if_pos hid]
    · rw [if_neg hid]

/-- When the attribute id is nonempty and a known logical id of the purpose,
the service resolution returns it unchanged (rule (a)). -/
lemma findLogicalIdSvc_idHit (p : String) (meta : PurposeMeta) (a : String)
    (nm : Option String) (hmeta : getConsentMetadata p = some meta)
    (ha0 : a ≠ "") (ha : a ∈ metaIdsOf meta) :
    findLogicalIdSvc (getConsentMetadata p) (some a) nm = some a := by
  rw [hmeta]
  unfold findLogicalIdSvc
  dsimp only
  rw [if_pos (by simp [ha0, ha])]

lemma digit_range_eq_isDigit (c : Char) :
    (decide ('0' ≤ c) && decide (c ≤ '9')) = c.isDigit := rfl

lemma digit_not_ws (c : Char) (h : c.isDigit = true) : c.isWhitespace = false := by
  cases hw : c.isWhitespace
  · rfl
  · exfalso
    have hw' := hw
    simp [Char.isWhitespace] at hw'
    rcases hw' with ((rfl | rfl) | rfl) | rfl <;> exact absurd h (by decide)

lemma filter_digit_eq (l : List Char)
    (h : ∀ c ∈ l, (!c.isWhitespace) = true → c.isDigit = true) :
    l.filter Char.isDigit = l.filter (fun c => !c.isWhitespace) := by
  induction l with
  | nil => rfl
  | cons c t ih =>
    have ht := ih (fun x hx hd => h x (by simp [hx]) hd)
    cases hw : c.isWhitespace
    · have hd : c.isDigit = true := h c (by simp) (by simp [hw])
      simp [List.filter_cons, hd, hw, ht]
    · have hd : c.isDigit = false := by
        cases hdd : c.isDigit
        · rfl
        · rw [digit_not_ws c hdd] at hw
          cases hw
      simp [List.filter_cons, hd, hw, ht]

lemma validateAadhaar_eq (s : String) :
    validateAadhaar (some s) = aadhaarRegexTest (jsStripWs s) := by
  unfold validateAadhaar
  dsimp only
  by_cases h : s = ""
  · subst h
    decide
  · have hne : (s != "") = true := by simp [h]
    rw [hne, Bool.true_and]

lemma validatePAN_eq (t : String) :
    validatePAN (some t) = panRegexTest (jsToUpper t) := by
  unfold validatePAN
  dsimp only
  by_cases h : t = ""
  · subst h
    decide
  · have hne : (t != "") = true := by simp [h]
    rw [hne, Bool.true_and]

lemma jsDigitsOnly_of_valid (s : String) (h : aadhaarRegexTest (jsStripWs s) = true) :
    jsDigitsOnly s = jsStripWs s := by
  unfold aadhaarRegexTest at h
  rw [Bool.and_eq_true] at h
  have hall := h.2
  unfold jsDigitsOnly jsStripWs
  congr 1
  apply filter_digit_eq
  intro c hc hw
  have hcmem : c ∈ (jsStripWs s).toList := by
    show c ∈ (String.mk (s.toList.filter (fun c => !c.isWhitespace))).data
    simp only [String.toList] at *
    exact List.mem_filter.mpr ⟨hc, hw⟩
  have := List.all_eq_true.mp hall c hcmem
  rw [← digit_range_eq_isDigit]
  exact this

lemma maskAadhaar_of_valid (s : String) (h : aadhaarRegexTest (jsStripWs s) = true) :
    maskAadhaar (some s) = "********" ++ jsSliceNeg 4 (jsStripWs s) := by
  have hs : ¬s = "" := by
    intro h0
    subst h0
    exact absurd h (by decide)
  unfold maskAadhaar
  dsimp only
  rw [if_neg hs, jsDigitsOnly_of_valid s h]


/-! ## Claim theorems -/


/-- Claim C1, counterexample: with an empty consent list and an empty
required-attribute set, `hasRequiredConsents` returns `false` although every
required attribute (vacuously) resolves to a granted consent and the missing
list returned by `getMissingRequiredConsents` is empty — so the claimed
equivalences fail at exactly the advertised edge case. -/
theorem itr_gate_empty_required_cex :
    hasRequiredConsentsPure [] "ITR_FILING" [] = false
    ∧ getMissingRequiredConsentsPure [] "ITR_FILING" [] = ([] : List String) :=
  ⟨rfl, rfl⟩

/-- Claim C1 (amended): `getMissingRequiredConsents` always returns exactly
the required attributes that do not resolve to a granted (state 1) consent
for the purpose; `hasRequiredConsents` returns true iff the purpose has at
least one consent record and (the required set is empty or every required
attribute resolves to a granted consent); consequently, for every nonempty
required set the gate returns true exactly when the missing list is empty.
For the empty required set the missing list is always empty while the gate
still demands at least one consent record for the purpose. -/
theorem itr_gate_characterization (cs : List ConsentEntry) (p : String) (req : List String) :
    getMissingRequiredConsentsPure cs p req =
        req.filter (fun q => !(grantedLogical cs p q))
      ∧ hasRequiredConsentsPure cs p req =
        (!(purposeConsents cs p).isEmpty &&
          (req.isEmpty || req.all (fun q => grantedLogical cs p q)))
      ∧ (req ≠ [] →
          (hasRequiredConsentsPure cs p req = true ↔
            getMissingRequiredConsentsPure cs p req = [])) := by
  refine ⟨missing_eq_filter cs p req, hasRequired_eq cs p req, ?_⟩
  intro hreq
  rw [missing_eq_filter, hasRequired_eq]
  have hreqE : req.isEmpty = false := by
    cases req with
    | nil => exact absurd rfl hreq
    | cons a t => rfl
  constructor
  · intro h
    rw [Bool.and_eq_true] at h
    have h2 := h.2
    rw [Bool.or_eq_true] at h2
    rcases h2 with h2 | h2
    · rw [hreqE] at h2
      cases h2
    · rw [List.filter_eq_nil_iff]
      intro q hq
      have := List.all_eq_true.mp h2 q hq
      simp [this]
  · intro h
    have hall : ∀ q ∈ req, grantedLogical cs p q = true := by
      intro q hq
      by_contra hng
      have hfa : (!(grantedLogical cs p q)) = true := by
        cases hg : grantedLogical cs p q
        · rfl
        · exact absurd hg hng
      have hin : q ∈ req.filter (fun q => !(grantedLogical cs p q)) :=
        List.mem_filter.mpr ⟨hq, hfa⟩
      rw [h] at hin
      cases hin
    obtain ⟨q0, hq0⟩ : ∃ q, q ∈ req := by
      cases req with
      | nil => exact absurd rfl hreq
      | cons a t => exact ⟨a, by simp⟩
    have hg0 := hall q0 hq0
    have hpc : (purposeConsents cs p).isEmpty = false := by
      cases hpcc : purposeConsents cs p with
      | nil =>
        unfold grantedLogical at hg0
        rw [hpcc] at hg0
        cases hg0
      | cons a t => rfl
    rw [hpc]
    simp only [Bool.not_false, Bool.true_and, Bool.or_eq_true]
    right
    exact List.all_eq_true.mpr hall

/-- Claim C1 witness: the amended equivalence at a concrete input. -/
theorem itr_gate_characterization_witness :
    hasRequiredConsentsPure
        [⟨"ITR_FILING", some "name", none, some 1, none⟩] "ITR_FILING" ["name"] = true ↔
      getMissingRequiredConsentsPure
        [⟨"ITR_FILING", some "name", none, some 1, none⟩] "ITR_FILING" ["name"] = [] :=
  (itr_gate_characterization
    [⟨"ITR_FILING", some "name", none, some 1, none⟩] "ITR_FILING" ["name"]).2.2
    (by decide)

/-- Claim C5: when the external consent fetch throws, the catch blocks make
`hasRequiredConsents` return `false` and `getMissingRequiredConsents` return
the entire required list; both return normally (the error is not rethrown,
and no second fetch is attempted — each function consumes one fetch
outcome). -/
theorem gate_fail_closed_on_fetch_error (p : String) (req : List String) :
    hasRequiredConsents (Except.error ()) p req = false
    ∧ getMissingRequiredConsents (Except.error ()) p req = req :=
  ⟨rfl, rfl⟩

/-- Claim C10: the `POST /consent/update` handler stores state 1 iff the
request's state field is the boolean `true` or the number `1`; every other
value — including the strings `"1"` and `"true"`, `null`, and a missing
field — is coerced to 2 (deny). -/
theorem consent_toggle_state_coercion (v : JSVal) :
    (coerceConsentState v = 1 ∨ coerceConsentState v = 2)
    ∧ (coerceConsentState v = 1 ↔ (v = JSVal.bool true ∨ v = JSVal.num 1))
    ∧ coerceConsentState (JSVal.str "1") = 2
    ∧ coerceConsentState (JSVal.str "true") = 2
    ∧ coerceConsentState JSVal.null = 2
    ∧ coerceConsentState JSVal.undefined = 2 := by
  refine ⟨?_, ?_, by decide, by decide, by decide, by decide⟩
  · unfold coerceConsentState
    by_cases h : (v = JSVal.bool true ∨ v = JSVal.num 1)
    · left
      rw [if_pos h]
    · right
      rw [if_neg h]
  · unfold coerceConsentState
    by_cases h : (v = JSVal.bool true ∨ v = JSVal.num 1)
    · rw [if_pos h]
      exact ⟨fun _ => h, fun _ => rfl⟩
    · rw [if_neg h]
      constructor
      · intro h21
        exact absurd h21 (by norm_num)
      · intro hv
        exact absurd hv h

/-- Claim C4: both copies of `findLogicalId` (privacy service and consent
controller) apply the resolution rules in the fixed order (a) exact id match
against the purpose's known logical ids, (b) exact case-insensitive label
match, (c) substring label match in either direction, (d) keyword
heuristics — each later rule only when every earlier rule fails, as stated
by the ordered cascade `resolveByRules`. -/
theorem findLogicalId_rule_order (meta? : Option PurposeMeta) (attrId attrName : Option String)
    (p : String) (meta : PurposeMeta) (h : getConsentMetadata p = some meta) :
    findLogicalIdSvc meta? attrId attrName = resolveByRules meta? attrId attrName
    ∧ findLogicalIdCtrl p attrId attrName = resolveByRules (some meta) attrId attrName :=
  ⟨findLogicalIdSvc_eq_rules meta? attrId attrName,
   findLogicalIdCtrl_eq_rules p meta attrId attrName h⟩

/-- Claim C4 witness: rule order at a concrete label that only the keyword
heuristic resolves. -/
theorem findLogicalId_rule_order_witness :
    findLogicalIdSvc (some itrMeta) (some "9901") (some "my mobile no") =
        resolveByRules (some itrMeta) (some "9901") (some "my mobile no")
    ∧ findLogicalIdCtrl "ITR_FILING" (some "9901") (some "my mobile no") =
        resolveByRules (some itrMeta) (some "9901") (some "my mobile no") :=
  findLogicalId_rule_order (some itrMeta) (some "9901") (some "my mobile no")
    "ITR_FILING" itrMeta (by decide)

/-- Claim C2: a consent record every flattened attribute of which resolves
to no logical attribute (rule (a) fails and the label rules (b)-(d) fail)
never causes a required logical attribute to count as granted: inserting it
anywhere in the consent list leaves `grantedLogical` unchanged on every
known logical id, leaves the missing list unchanged, and (for a nonempty
required set) leaves the gate verdict unchanged. -/
theorem unresolved_record_never_grants (p : String) (meta : PurposeMeta) (r : ConsentEntry)
    (cs₁ cs₂ : List ConsentEntry) (required : List String)
    (hmeta : getConsentMetadata p = some meta)
    (hun : ∀ fa ∈ flattenEntry r, unresolvedAttr meta fa)
    (hreq : ∀ q ∈ required, q ∈ metaIdsOf meta) :
    (∀ q ∈ required,
        grantedLogical (cs₁ ++ r :: cs₂) p q = grantedLogical (cs₁ ++ cs₂) p q)
    ∧ getMissingRequiredConsentsPure (cs₁ ++ r :: cs₂) p required =
        getMissingRequiredConsentsPure (cs₁ ++ cs₂) p required
    ∧ (required ≠ [] →
        hasRequiredConsentsPure (cs₁ ++ r :: cs₂) p required =
          hasRequiredConsentsPure (cs₁ ++ cs₂) p required) := by
  have hgr : ∀ q ∈ required,
      grantedLogical (cs₁ ++ r :: cs₂) p q = grantedLogical (cs₁ ++ cs₂) p q := by
    intro q hq
    rw [grantedLogical_append, grantedLogical_append, grantedLogical_cons]
    have hmid : (flattenEntry r).any (attrGrantsQ p q) = false := by
      cases hh : (flattenEntry r).any (attrGrantsQ p q)
      · rfl
      · exfalso
        obtain ⟨fa, hfa, hg⟩ := List.any_eq_true.mp hh
        rw [unresolved_no_grant p meta fa q hmeta (hun fa hfa) (hreq q hq)] at hg
        cases hg
    rw [hmid, Bool.and_false, Bool.false_or]
  refine ⟨hgr, ?_, ?_⟩
  · rw [missing_eq_filter, missing_eq_filter]
    apply list_filter_congr
    intro q hq
    rw [hgr q hq]
  · intro hne
    rw [hasRequired_eq, hasRequired_eq]
    have hallEq : required.all (fun q => grantedLogical (cs₁ ++ r :: cs₂) p q) =
        required.all (fun q => grantedLogical (cs₁ ++ cs₂) p q) :=
      list_all_congr _ _ _ (fun q hq => hgr q hq)
    rw [hallEq]
    have hreqE : required.isEmpty = false := by
      cases required with
      | nil => exact absurd rfl hne
      | cons a t => rfl
    rw [hreqE]
    simp only [Bool.false_or]
    by_cases hall : required.all (fun q => grantedLogical (cs₁ ++ cs₂) p q) = true
    · obtain ⟨q0, hq0⟩ : ∃ q, q ∈ required := by
        cases required with
        | nil => exact absurd rfl hne
        | cons a t => exact ⟨a, by simp⟩
      have hg2 := List.all_eq_true.mp hall q0 hq0
      have hg1 : grantedLogical (cs₁ ++ r :: cs₂) p q0 = true := by
        rw [hgr q0 hq0]
        exact hg2
      have hpc2 : (purposeConsents (cs₁ ++ cs₂) p).isEmpty = false := by
        cases hc : purposeConsents (cs₁ ++ cs₂) p with
        | nil =>
          unfold grantedLogical at hg2
          rw [hc] at hg2
          cases hg2
        | cons a t => rfl
      have hpc1 : (purposeConsents (cs₁ ++ r :: cs₂) p).isEmpty = false := by
        cases hc : purposeConsents (cs₁ ++ r :: cs₂) p with
        | nil =>
          unfold grantedLogical at hg1
          rw [hc] at hg1
          cases hg1
        | cons a t => rfl
      rw [hall, hpc1, hpc2]
    · have hall' : required.all (fun q => grantedLogical (cs₁ ++ cs₂) p q) = false := by
        cases hh : required.all (fun q => grantedLogical (cs₁ ++ cs₂) p q)
        · rfl
        · exact absurd hh hall
      rw [hall']
      simp

/-- Claim C2 witness: a record with an opaque tenant attribute id and the
label "Shoe Size" (which no rule resolves) leaves the missing list of the
ITR gate unchanged. -/
theorem unresolved_record_never_grants_witness :
    getMissingRequiredConsentsPure
        ([] ++ (⟨"ITR_FILING", some "tenant_9901", some "Shoe Size", some 1, none⟩ :
          ConsentEntry) :: []) "ITR_FILING" ["name"] =
      getMissingRequiredConsentsPure ([] ++ []) "ITR_FILING" ["name"] :=
  (unresolved_record_never_grants "ITR_FILING" itrMeta
    ⟨"ITR_FILING", some "tenant_9901", some "Shoe Size", some 1, none⟩ [] [] ["name"]
    (by decide)
    (by
      intro fa hfa
      have hfe : flattenEntry
          (⟨"ITR_FILING", some "tenant_9901", some "Shoe Size", some 1, none⟩ : ConsentEntry) =
          [⟨some "tenant_9901", some "Shoe Size", some 1⟩] := by decide
      rw [hfe, List.mem_singleton] at hfa
      subst hfa
      refine ⟨by decide, ?_⟩
      intro nm hnm hne
      have : "Shoe Size" = nm := Option.some.inj hnm
      subst this
      exact ⟨by decide, by decide, by decide⟩)
    (by decide)).2.1

/-- Claim C3, counterexample: the list contains a record whose attributeId
"name" exactly matches a known logical id of `ITR_FILING` with state 1
(granted), yet `_buildConsentState` marks `name` as not granted, because a
later record for the same logical id overwrote it. -/
theorem buildState_exact_id_cex :
    (⟨"ITR_FILING", some "name", none, some 1, none⟩ : ConsentEntry) ∈
        [(⟨"ITR_FILING", some "name", none, some 1, none⟩ : ConsentEntry),
         ⟨"ITR_FILING", some "name", none, some 2, none⟩]
    ∧ "name" ∈ metaIdsOf itrMeta
    ∧ (buildConsentState (some
        [⟨"ITR_FILING", some "name", none, some 1, none⟩,
         ⟨"ITR_FILING", some "name", none, some 2, none⟩])).get "ITR_FILING" (some "name") =
        some false := by
  refine ⟨by decide, by decide, by decide⟩

/-- Claim C3 (amended): for every consent list and record in it whose
attributeId exactly matches a known logical id of its purpose, if no later
entry writes to that (purpose, logical id) pair, then `_buildConsentState`
marks that logical id granted iff the record's state is 1; any other state
(2, 3, 4, 5 or absent) maps it to not granted. -/
theorem buildState_exact_id_last_wins (p : String) (meta : PurposeMeta) (a : String)
    (r : ConsentEntry) (cs₁ cs₂ : List ConsentEntry)
    (hmeta : getConsentMetadata p = some meta)
    (hp : r.purposeId = p) (hid : r.attributeId = some a) (ha : a ∈ metaIdsOf meta)
    (hlast : ∀ e ∈ cs₂, ∀ asn ∈ entryAssigns e, ¬(asn.purpose = p ∧ asn.key = some a)) :
    (buildConsentState (some (cs₁ ++ r :: cs₂))).get p (some a) =
      some (r.state == some (1 : Int)) := by
  have ha0 : a ≠ "" := fun h0 => metaIds_no_empty p meta hmeta (h0 ▸ ha)
  have hr : entryAssigns r = [⟨p, some a, r.state == some (1 : Int)⟩] := by
    unfold entryAssigns
    rw [hid, hp]
    rw [if_pos (show strTruthy (some a) = true by simp [strTruthy, ha0])]
    rw [findLogicalIdCtrl_idHit p meta a r.attributeName hmeta ha0 ha]
  unfold buildConsentState
  dsimp only
  rw [if_neg (show ¬(cs₁ ++ r :: cs₂).length = 0 by simp)]
  unfold BState.get
  rw [foldl_assigns]
  rw [flatAssigns_append]
  have hcons : flatAssigns (r :: cs₂) = entryAssigns r ++ flatAssigns cs₂ := rfl
  rw [hcons, hr]
  have hB : lookupLast (flatAssigns cs₂) p (some a) = none := by
    apply lookupLast_eq_none
    intro asn hasn
    obtain ⟨e, he, hae⟩ := mem_flatAssigns hasn
    exact hlast e he asn hae
  rw [lookupLast_append, lookupLast_append, lookupLast_append, hB]
  simp [lookupLast]

/-- Claim C3 witness: a grant record followed by a deny record for the same
logical id; the deny record is last, so the mapping carries `false`. -/
theorem buildState_exact_id_last_wins_witness :
    (buildConsentState (some
      ([⟨"ITR_FILING", some "name", none, some 1, none⟩] ++
        (⟨"ITR_FILING", some "name", none, some 2, none⟩ : ConsentEntry) :: []))).get
      "ITR_FILING" (some "name") = some false := by
  have h := buildState_exact_id_last_wins "ITR_FILING" itrMeta "name"
    ⟨"ITR_FILING", some "name", none, some 2, none⟩
    [⟨"ITR_FILING", some "name", none, some 1, none⟩] []
    (by decide) rfl rfl (by decide)
    (by
      intro e he
      exact absurd he (List.not_mem_nil e))
  simpa using h

/-- Claim C6, counterexample: with the SDK purpose metadata unavailable,
`updateConsent` accepts an empty attributeId; the faithfully stored record is
then ignored by `_buildConsentState` (an empty attributeId is falsy and there
is no nested attributes array), so the rebuilt mapping does not carry the
stored granted value for that pair. -/
theorem consent_roundtrip_cex :
    updateConsent none "ITR_FILING" "" 1 = Except.ok (mkConsentValue "ITR_FILING" "" 1)
    ∧ (buildConsentState (some (getUserConsentsOk (some
        ([] ++ [entryOfValue (mkConsentValue "ITR_FILING" "" 1)]))))).get
        "ITR_FILING" (some "") ≠ some ((1 : Int) == 1) :=
  ⟨rfl, by decide⟩

/-- Claim C6 (amended): for every purpose, every nonempty attributeId and
every state, if `updateConsent` succeeds and the external store faithfully
records what was written (re-fetching returns the prior records with the
stored record appended), then rebuilding the state with `_buildConsentState`
maps (purpose, attributeId) to exactly the stored granted/denied value. -/
theorem consent_roundtrip (sdkAttrIds : Option (List String)) (p a : String) (st : Int)
    (v : ConsentValue) (prior : List ConsentEntry)
    (hok : updateConsent sdkAttrIds p a st = Except.ok v)
    (ha : a ≠ "") :
    (buildConsentState (some (getUserConsentsOk (some (prior ++ [entryOfValue v]))))).get
      p (some a) = some (st == 1) := by
  have hv : v = mkConsentValue p a st := by
    cases sdkAttrIds with
    | none => exact (Except.ok.inj hok).symm
    | some ids =>
      unfold updateConsent at hok
      dsimp only at hok
      by_cases hmem : a ∈ ids
      · rw [if_pos hmem] at hok
        exact (Except.ok.inj hok).symm
      · rw [if_neg hmem] at hok
        cases hok
  subst hv
  have hg : getUserConsentsOk (some (prior ++ [entryOfValue (mkConsentValue p a st)])) =
      prior ++ [entryOfValue (mkConsentValue p a st)] := rfl
  rw [hg]
  have he : entryAssigns (entryOfValue (mkConsentValue p a st)) =
      [⟨p, some a, some st == some (1 : Int)⟩] := by
    unfold entryAssigns entryOfValue mkConsentValue
    dsimp only
    rw [if_pos (show strTruthy (some a) = true by simp [strTruthy, ha])]
    rw [findLogicalIdCtrl_noName p a ha]
  unfold buildConsentState
  dsimp only
  rw [if_neg (show ¬(prior ++ [entryOfValue (mkConsentValue p a st)]).length = 0 by simp)]
  unfold BState.get
  rw [foldl_assigns, flatAssigns_append]
  have hsingle : flatAssigns [entryOfValue (mkConsentValue p a st)] =
      entryAssigns (entryOfValue (mkConsentValue p a st)) ++ [] := rfl
  rw [hsingle, he, List.append_nil, lookupLast_append, lookupLast_append]
  simp [lookupLast]

/-- Claim C6 witness: an aadhar_id grant stored next to an unrelated prior
record is read back as granted. -/
theorem consent_roundtrip_witness :
    (buildConsentState (some (getUserConsentsOk (some
        ([⟨"MARKETING_COMMUNICATIONS", some "email", none, some 2, none⟩] ++
          [entryOfValue (mkConsentValue "ITR_FILING" "aadhar_id" 1)]))))).get
      "ITR_FILING" (some "aadhar_id") = some true := by
  have h := consent_roundtrip none "ITR_FILING" "aadhar_id" 1
    (mkConsentValue "ITR_FILING" "aadhar_id" 1)
    [⟨"MARKETING_COMMUNICATIONS", some "email", none, some 2, none⟩]
    rfl (by decide)
  simpa using h

/-- Claim C7: registration step 2 (with an in-progress registration in the
session) rejects with a 400 re-render iff the Aadhaar with whitespace
removed fails the 12-digit test or the PAN uppercased fails the PAN pattern;
when both pass it stores the masked Aadhaar (8 asterisks plus the last 4
digits), the full Aadhaar, the masked PAN and the full PAN, and redirects to
step 3. -/
theorem postStep2_validation (s t : String) :
    ((postStep2 true (some s) (some t) = Step2Result.invalidAadhaar ∨
        postStep2 true (some s) (some t) = Step2Result.invalidPAN)
      ↔ ¬(aadhaarRegexTest (jsStripWs s) = true ∧ panRegexTest (jsToUpper t) = true))
    ∧ (aadhaarRegexTest (jsStripWs s) = true → panRegexTest (jsToUpper t) = true →
        postStep2 true (some s) (some t) =
          Step2Result.redirectStep3 ("********" ++ jsSliceNeg 4 (jsStripWs s)) s
            (maskPAN (some t)) t) := by
  have hVA := validateAadhaar_eq s
  have hVP := validatePAN_eq t
  constructor
  · by_cases hA : aadhaarRegexTest (jsStripWs s) = true
    · by_cases hP : panRegexTest (jsToUpper t) = true
      · simp [postStep2, hVA, hVP, hA, hP]
      · have hP' : panRegexTest (jsToUpper t) = false := by
          cases hh : panRegexTest (jsToUpper t)
          · rfl
          · exact absurd hh hP
        simp [postStep2, hVA, hVP, hA, hP']
    · have hA' : aadhaarRegexTest (jsStripWs s) = false := by
        cases hh : aadhaarRegexTest (jsStripWs s)
        · rfl
        · exact absurd hh hA
      simp [postStep2, hVA, hVP, hA']
  · intro hA hP
    simp [postStep2, hVA, hVP, hA, hP, maskAadhaar_of_valid s hA]

/-- Claim C7 witness: a spaced Aadhaar and lowercase PAN pass validation and
are masked as claimed. -/
theorem postStep2_validation_witness :
    aadhaarRegexTest (jsStripWs "1234 5678 9012") = true
    ∧ panRegexTest (jsToUpper "abcde1234f") = true
    ∧ postStep2 true (some "1234 5678 9012") (some "abcde1234f") =
        Step2Result.redirectStep3
          ("********" ++ jsSliceNeg 4 (jsStripWs "1234 5678 9012")) "1234 5678 9012"
          (maskPAN (some "abcde1234f")) "abcde1234f" :=
  ⟨by decide, by decide,
   (postStep2_validation "1234 5678 9012" "abcde1234f").2 (by decide) (by decide)⟩

/-- Claim C8: when a consent list contains a state-1 and a state-2 entry for
the same required logical attribute, the gate counts the attribute as
granted in either order (any grant wins) and the missing list is empty,
whereas `_buildConsentState` maps the attribute to the state of the last
entry (last write wins) — so on the grant-then-deny list the gate says
granted while the rebuilt mapping says not granted. -/
theorem gate_grant_wins_buildState_last_wins (p : String) (meta : PurposeMeta) (q : String)
    (hmeta : getConsentMetadata p = some meta) (hq : q ∈ metaIdsOf meta) :
    (∀ cs : List ConsentEntry,
        (⟨p, some q, none, some 1, none⟩ : ConsentEntry) ∈ cs →
        grantedLogical cs p q = true)
    ∧ hasRequiredConsentsPure
        [⟨p, some q, none, some 1, none⟩, ⟨p, some q, none, some 2, none⟩] p [q] = true
    ∧ hasRequiredConsentsPure
        [⟨p, some q, none, some 2, none⟩, ⟨p, some q, none, some 1, none⟩] p [q] = true
    ∧ getMissingRequiredConsentsPure
        [⟨p, some q, none, some 1, none⟩, ⟨p, some q, none, some 2, none⟩] p [q] = []
    ∧ (buildConsentState (some
        [⟨p, some q, none, some 1, none⟩, ⟨p, some q, none, some 2, none⟩])).get
        p (some q) = some false
    ∧ (buildConsentState (some
        [⟨p, some q, none, some 2, none⟩, ⟨p, some q, none, some 1, none⟩])).get
        p (some q) = some true := by
  have hq0 : q ≠ "" := fun h0 => metaIds_no_empty p meta hmeta (h0 ▸ hq)
  have hfe : flattenEntry (⟨p, some q, none, some 1, none⟩ : ConsentEntry) =
      [⟨some q, none, some 1⟩] := by
    unfold flattenEntry
    dsimp only
    rw [if_pos (show strTruthy (some q) = true by simp [strTruthy, hq0])]
  have hgrant : attrGrantsQ p q ⟨some q, none, some 1⟩ = true := by
    unfold attrGrantsQ
    rw [findLogicalIdSvc_idHit p meta q none hmeta hq0 hq]
    simp
  have hgw : ∀ cs : List ConsentEntry,
      (⟨p, some q, none, some 1, none⟩ : ConsentEntry) ∈ cs →
      grantedLogical cs p q = true := by
    intro cs hmem
    induction cs with
    | nil => cases hmem
    | cons e t ih =>
      rw [grantedLogical_cons]
      rcases List.mem_cons.mp hmem with he | ht
      · rw [← he]
        have h1 : decide ((⟨p, some q, none, some 1, none⟩ : ConsentEntry).purposeId = p) =
            true := by simp
        rw [h1, hfe]
        simp [hgrant]
      · rw [ih ht]
        simp
  have hstate : ∀ st1 st2 : Option Int,
      (buildConsentState (some
        [⟨p, some q, none, st1, none⟩, ⟨p, some q, none, st2, none⟩])).get p (some q) =
        some (st2 == some (1 : Int)) := by
    intro st1 st2
    have h1 : entryAssigns ⟨p, some q, none, st1, none⟩ =
        [⟨p, some q, st1 == some (1 : Int)⟩] := by
      unfold entryAssigns
      dsimp only
      rw [if_pos (show strTruthy (some q) = true by simp [strTruthy, hq0])]
      rw [findLogicalIdCtrl_noName p q hq0]
    have h2 : entryAssigns ⟨p, some q, none, st2, none⟩ =
        [⟨p, some q, st2 == some (1 : Int)⟩] := by
      unfold entryAssigns
      dsimp only
      rw [if_pos (show strTruthy (some q) = true by simp [strTruthy, hq0])]
      rw [findLogicalIdCtrl_noName p q hq0]
    unfold buildConsentState
    dsimp only
    rw [if_neg (show ¬([⟨p, some q, none, st1, none⟩,
      (⟨p, some q, none, st2, none⟩ : ConsentEntry)].length = 0) by simp)]
    unfold BState.get
    rw [foldl_assigns]
    have hfa : flatAssigns [⟨p, some q, none, st1, none⟩, ⟨p, some q, none, st2, none⟩] =
        entryAssigns ⟨p, some q, none, st1, none⟩ ++
          (entryAssigns ⟨p, some q, none, st2, none⟩ ++ []) := rfl
    rw [hfa, h1, h2]
    simp [lookupLast]
  have hpc : ∀ st1 st2 : Option Int,
      purposeConsents [⟨p, some q, none, st1, none⟩,
        (⟨p, some q, none, st2, none⟩ : ConsentEntry)] p =
      [⟨p, some q, none, st1, none⟩, ⟨p, some q, none, st2, none⟩] := by
    intro st1 st2
    simp [purposeConsents]
  refine ⟨hgw, ?_, ?_, ?_, ?_, ?_⟩
  · rw [hasRequired_eq, hpc (some 1) (some 2)]
    have hg := hgw [⟨p, some q, none, some 1, none⟩, ⟨p, some q, none, some 2, none⟩]
      (by simp)
    simp [hg]
  · rw [hasRequired_eq, hpc (some 2) (some 1)]
    have hg := hgw [⟨p, some q, none, some 2, none⟩, ⟨p, some q, none, some 1, none⟩]
      (by simp)
    simp [hg]
  · rw [missing_eq_filter]
    have hg := hgw [⟨p, some q, none, some 1, none⟩, ⟨p, some q, none, some 2, none⟩]
      (by simp)
    simp [hg]
  · rw [hstate (some 1) (some 2)]
    rfl
  · rw [hstate (some 2) (some 1)]
    rfl

/-- Claim C8 witness: the grant-wins / last-write-wins disagreement at the
concrete ITR attribute "name". -/
theorem gate_grant_wins_buildState_last_wins_witness :
    grantedLogical
        [⟨"ITR_FILING", some "name", none, some 1, none⟩,
         ⟨"ITR_FILING", some "name", none, some 2, none⟩] "ITR_FILING" "name" = true
    ∧ hasRequiredConsentsPure
        [⟨"ITR_FILING", some "name", none, some 1, none⟩,
         ⟨"ITR_FILING", some "name", none, some 2, none⟩] "ITR_FILING" ["name"] = true
    ∧ hasRequiredConsentsPure
        [⟨"ITR_FILING", some "name", none, some 2, none⟩,
         ⟨"ITR_FILING", some "name", none, some 1, none⟩] "ITR_FILING" ["name"] = true
    ∧ getMissingRequiredConsentsPure
        [⟨"ITR_FILING", some "name", none, some 1, none⟩,
         ⟨"ITR_FILING", some "name", none, some 2, none⟩] "ITR_FILING" ["name"] = []
    ∧ (buildConsentState (some
        [⟨"ITR_FILING", some "name", none, some 1, none⟩,
         ⟨"ITR_FILING", some "name", none, some 2, none⟩])).get
        "ITR_FILING" (some "name") = some false
    ∧ (buildConsentState (some
        [⟨"ITR_FILING", some "name", none, some 2, none⟩,
         ⟨"ITR_FILING", some "name", none, some 1, none⟩])).get
        "ITR_FILING" (some "name") = some true := by
  have h := gate_grant_wins_buildState_last_wins "ITR_FILING" itrMeta "name"
    (by decide) (by decide)
  exact ⟨h.1 _ (by decide), h.2.1, h.2.2.1, h.2.2.2.1, h.2.2.2.2.1, h.2.2.2.2.2⟩

/-- Claim C9: `_buildConsentState` is total over its embedded input type and
always returns a state whose purpose keys include both
MARKETING_COMMUNICATIONS and ITR_FILING; for a null/undefined or empty
input list, every default attribute of both purposes is mapped to false. -/
theorem buildState_total_defaults (cs? : Option (List ConsentEntry)) :
    ("MARKETING_COMMUNICATIONS" ∈ (buildConsentState cs?).purposes
      ∧ "ITR_FILING" ∈ (buildConsentState cs?).purposes)
    ∧ ((cs? = none ∨ cs? = some []) →
        (∀ a ∈ (["name", "email", "mobile_number"] : List String),
            (buildConsentState cs?).get "MARKETING_COMMUNICATIONS" (some a) = some false)
        ∧ (∀ a ∈ (["name", "email", "mobile_number", "aadhar_id", "pan_id"] : List String),
            (buildConsentState cs?).get "ITR_FILING" (some a) = some false)) := by
  constructor
  · cases cs? with
    | none => exact ⟨by decide, by decide⟩
    | some cs =>
      by_cases h : cs.length = 0
      · unfold buildConsentState
        dsimp only
        rw [if_pos h]
        exact ⟨by decide, by decide⟩
      · unfold buildConsentState
        dsimp only
        rw [if_neg h]
        exact ⟨foldl_purposes_mem cs _ _ (by decide), foldl_purposes_mem cs _ _ (by decide)⟩
  · intro hc
    rcases hc with rfl | rfl
    · exact ⟨by decide, by decide⟩
    · exact ⟨by decide, by decide⟩

/-- Claim C9 witness: the defaults at the null input. -/
theorem buildState_total_defaults_witness :
    (buildConsentState none).get "ITR_FILING" (some "pan_id") = some false := by
  have h := (buildState_total_defaults none).2 (Or.inl rfl)
  exact h.2 "pan_id" (by decide)
